import Mathlib

/-!
Verification of the `traefik-api-key-auth` plugin (`plugin.go`).

Strings are modelled as `List Char` (Go strings over ASCII input; the `str`
helper converts Lean string literals). Go's sentinel convention is kept as in
the source: the empty string `[]` denotes "no match".
-/

set_option autoImplicit false

namespace ApiKeyAuth

/-- Convert a Lean string literal to the `List Char` representation used
throughout the development. -/
def str (s : String) : List Char := s.toList

/-- Characters matched by RE2's `\s` character class (`[\t\n\f\r ]`),
used by the regular expression in `bearer`. -/
def goWhitespace (c : Char) : Bool :=
  c = '\t' || c = '\n' || c = '\x0c' || c = '\r' || c = ' '

/-- Go's `strings.Contains s sub`: `sub` occurs as a contiguous substring
of `s`. -/
def containsSub : List Char → List Char → Bool
  | [], sub => sub.isEmpty
  | c :: t, sub => sub.isPrefixOf (c :: t) || containsSub t sub

/-- `contains` from plugin.go: walks the list of valid keys and returns the
first one that matches the candidate `key` — by equality when `exact` is
true, by `strings.Contains key a` (substring of the candidate) otherwise.
Returns the empty string when no key matches. -/
def contains (key : List Char) (validKeys : List (List Char)) (exact : Bool) : List Char :=
  match validKeys with
  | [] => []
  | a :: rest =>
    if exact = true then
      (if a = key then a else contains key rest exact)
    else
      (if containsSub key a = true then a else contains key rest exact)

/-- The greedy capture of `[^$]+`: the maximal run of characters other than
a literal dollar sign. -/
def takeNonDollar : List Char → List Char
  | [] => []
  | c :: t => if c = '$' then [] else c :: takeNonDollar t

/-- One attempt of the regular expression `Bearer\s(?P<key>[^$]+)` at the
head of the string: the literal `Bearer`, one whitespace character, then a
non-empty greedy capture of non-`$` characters. -/
def bearerCapture : List Char → Option (List Char)
  | b1 :: b2 :: b3 :: b4 :: b5 :: b6 :: w :: c :: rest =>
    if [b1, b2, b3, b4, b5, b6] = str "Bearer" ∧ goWhitespace w = true ∧ c ≠ '$' then
      some (takeNonDollar (c :: rest))
    else none
  | _ => none

/-- Leftmost match of the (unanchored) regular expression
`Bearer\s(?P<key>[^$]+)`, as `regexp.FindStringSubmatch` computes it: the
capture of the match starting at the earliest possible position. -/
def bearerScan : List Char → Option (List Char)
  | [] => none
  | c :: t =>
    match bearerCapture (c :: t) with
    | some k => some k
    | none => bearerScan t

/-- `bearer` from plugin.go: extracts the token from an
`Authorization: Bearer $token` header value using the regular expression
`Bearer\s(?P<key>[^$]+)` and compares it exactly against the valid keys.
Returns the empty string when the value does not match the pattern or the
extracted token is not a valid key. -/
def bearer (key : List Char) (validKeys : List (List Char)) : List Char :=
  match bearerScan key with
  | none => []
  | some extractedKey => contains extractedKey validKeys true

/-!
Model of the pieces of `net/url` and `net/http`/`net/textproto` the plugin
uses: `url.Values` (`Query`, `Get`, `Del`, `Encode`) and `http.Header`
(`Get`, `Add`, `Del`). Characters are treated at the byte level (ASCII);
`url.Values` and `http.Header`, Go maps from string to string slice, are
modelled as association lists with one entry per key, keys in first-insertion
order (`Encode` sorts the keys, `Get`/`Del` look keys up, so the entry order
is unobservable).
-/

/-- A Go `map[string][]string` (`url.Values` / `http.Header`). -/
abbrev Values := List (List Char × List (List Char))

/-- Append a value under a key (`url.Values.Add` / map append in
`url.ParseQuery`). -/
def valuesAdd : Values → List Char → List Char → Values
  | [], k, v => [(k, [v])]
  | (k', vs) :: rest, k, v =>
    if k' = k then (k', vs ++ [v]) :: rest else (k', vs) :: valuesAdd rest k v

/-- The full value slice stored under a key (Go map indexing; empty slice
when the key is absent). -/
def valuesLookup : Values → List Char → List (List Char)
  | [], _ => []
  | (k', vs) :: rest, k => if k' = k then vs else valuesLookup rest k

/-- `url.Values.Get`: the first value under the key, or the empty string
when the key is absent or its slice is empty. -/
def valuesGet (m : Values) (k : List Char) : List Char :=
  match valuesLookup m k with
  | [] => []
  | v :: _ => v

/-- `url.Values.Del`: remove the key and all its values. -/
def valuesDel : Values → List Char → Values
  | [], _ => []
  | (k', vs) :: rest, k =>
    if k' = k then valuesDel rest k else (k', vs) :: valuesDel rest k

/-- Value of a hexadecimal digit, `none` for any other character
(Go `ishex`/`unhex`). -/
def hexVal : Char → Option Nat := fun c =>
  if '0' ≤ c ∧ c ≤ '9' then some (c.toNat - 48)
  else if 'a' ≤ c ∧ c ≤ 'f' then some (c.toNat - 87)
  else if 'A' ≤ c ∧ c ≤ 'F' then some (c.toNat - 55)
  else none

/-- `url.QueryUnescape`: `+` becomes a space, `%XX` becomes the byte `XX`;
a malformed percent escape makes the whole unescape fail (Go returns an
error, and `url.ParseQuery` then drops the key/value pair). -/
def unescapeQuery : List Char → Option (List Char)
  | [] => some []
  | '%' :: a :: b :: rest =>
    match hexVal a, hexVal b with
    | some x, some y => (unescapeQuery rest).map (fun t => Char.ofNat (16 * x + y) :: t)
    | _, _ => none
  | '%' :: _ => none
  | '+' :: rest => (unescapeQuery rest).map (fun t => ' ' :: t)
  | c :: rest => (unescapeQuery rest).map (fun t => c :: t)

/-- Uppercase hexadecimal digit character for a value below 16. -/
def hexUpper (d : Nat) : Char :=
  if d < 10 then Char.ofNat (48 + d) else Char.ofNat (55 + d)

/-- `url.QueryEscape` on one character: ASCII letters, digits and
`-`, `_`, `.`, `~` stay, a space becomes `+`, anything else becomes `%XX`
(byte-level model). -/
def escapeChar (c : Char) : List Char :=
  if c.isAlphanum || c = '-' || c = '_' || c = '.' || c = '~' then [c]
  else if c = ' ' then ['+']
  else ['%', hexUpper (c.toNat / 16 % 16), hexUpper (c.toNat % 16)]

/-- `url.QueryEscape` over a string. -/
def queryEscape : List Char → List Char
  | [] => []
  | c :: rest => escapeChar c ++ queryEscape rest

/-- Split a query string on `&` (the iterated `strings.Cut(query, "&")` of
`url.ParseQuery`; the single empty segment produced for the empty string is
dropped by the `key == ""` check, matching Go's zero-iteration loop). -/
def splitAmp : List Char → List (List Char)
  | [] => [[]]
  | '&' :: rest => [] :: splitAmp rest
  | c :: rest =>
    match splitAmp rest with
    | [] => [[c]]
    | s :: ss => (c :: s) :: ss

/-- `strings.Cut s "="`: the parts before and after the first `=`
(everything and the empty string when there is none). -/
def cutEq : List Char → List Char × List Char
  | [] => ([], [])
  | '=' :: rest => ([], rest)
  | c :: rest =>
    match cutEq rest with
    | (a, b) => (c :: a, b)

/-- `url.ParseQuery` as used by `URL.Query()` (errors discarded): split on
`&`; skip segments containing `;`, empty segments, and segments whose key or
value fails to unescape; record the remaining pairs in order. -/
def parseQuery (query : List Char) : Values :=
  (splitAmp query).foldl
    (fun m seg =>
      if seg.contains ';' then m
      else if seg = [] then m
      else
        match unescapeQuery (cutEq seg).1, unescapeQuery (cutEq seg).2 with
        | some k, some v => valuesAdd m k v
        | _, _ => m)
    []

/-- Go's byte-wise lexicographic string order, used by `slices.Sort` on the
keys in `url.Values.Encode`. -/
def lexLe : List Char → List Char → Bool
  | [], _ => true
  | _ :: _, [] => false
  | a :: as, b :: bs => if a = b then lexLe as bs else decide (a < b)

/-- Insert a key into a `lexLe`-sorted list of keys. -/
def insertKey (k : List Char) : List (List Char) → List (List Char)
  | [] => [k]
  | x :: xs => if lexLe k x = true then k :: x :: xs else x :: insertKey k xs

/-- Sort keys in Go's lexicographic order (insertion sort; the keys of a
`url.Values` are distinct, so this agrees with `slices.Sort`). -/
def sortKeys (ks : List (List Char)) : List (List Char) := ks.foldr insertKey []

/-- `url.Values.Encode`: keys in sorted order, each value as
`escapedKey=escapedValue`, pairs joined by `&`. -/
def valuesEncode (m : Values) : List Char :=
  List.intercalate ['&']
    (List.flatten
      ((sortKeys (m.map Prod.fst)).map
        (fun k => (valuesLookup m k).map (fun v => queryEscape k ++ '=' :: queryEscape v))))

/-- Valid MIME header token characters (`textproto.validHeaderFieldByte`):
ASCII letters, digits and the punctuation listed by code point
(`! # $ % & ' * + - . ^ _ \x60 | ~`). -/
def isTokenChar (c : Char) : Bool :=
  c.isAlphanum || [33, 35, 36, 37, 38, 39, 42, 43, 45, 46, 94, 95, 96, 124, 126].contains c.toNat

/-- The case-mapping loop of `textproto.CanonicalMIMEHeaderKey`: uppercase
the first letter and every letter following a `-`, lowercase the rest. -/
def canonicalize : List Char → Bool → List Char
  | [], _ => []
  | c :: rest, up =>
    (if up then c.toUpper else c.toLower) :: canonicalize rest (c = '-')

/-- `textproto.CanonicalMIMEHeaderKey`: canonical case when every character
is a valid token character, the key unchanged otherwise. -/
def canonicalMIMEHeaderKey (s : List Char) : List Char :=
  if s.all isTokenChar then canonicalize s true else s

/-- `http.Header.Get`: first value under the canonicalized key, or "". -/
def headerGet (h : Values) (k : List Char) : List Char :=
  valuesGet h (canonicalMIMEHeaderKey k)

/-- `http.Header.Add`: append a value under the canonicalized key. -/
def headerAdd (h : Values) (k v : List Char) : Values :=
  valuesAdd h (canonicalMIMEHeaderKey k) v

/-- `http.Header.Del`: delete the canonicalized key. -/
def headerDel (h : Values) (k : List Char) : Values :=
  valuesDel h (canonicalMIMEHeaderKey k)


/-- `Config` from plugin.go. -/
structure Config where
  AuthenticationHeader : Bool
  AuthenticationHeaderName : List Char
  BearerHeader : Bool
  BearerHeaderName : List Char
  QueryParam : Bool
  QueryParamName : List Char
  PathSegment : Bool
  RemoveQueryParamsOnSuccess : Bool
  Keys : List (List Char)
  RemoveHeadersOnSuccess : Bool
  InternalForwardHeaderName : List Char
  InternalErrorRoute : List Char
deriving DecidableEq

/-- `CreateConfig` from plugin.go: the default configuration. -/
def CreateConfig : Config :=
  { AuthenticationHeader := true
    AuthenticationHeaderName := str "X-API-KEY"
    BearerHeader := true
    BearerHeaderName := str "Authorization"
    QueryParam := true
    QueryParamName := str "token"
    PathSegment := true
    RemoveQueryParamsOnSuccess := true
    Keys := []
    RemoveHeadersOnSuccess := true
    InternalForwardHeaderName := []
    InternalErrorRoute := [] }

/-- `Response` from plugin.go: the rejection payload. -/
structure Response where
  Message : List Char
  StatusCode : Nat
deriving DecidableEq

/-- `json.NewEncoder(rw).Encode` applied to a `Response`: Go's encoder
writes the object with the struct's field order and appends a newline.
(The fixed message contains no characters needing JSON escaping.) -/
def jsonEncodeResponse (r : Response) : List Char :=
  str "\x7b\"message\":\"" ++ r.Message ++ str "\",\"status_code\":" ++
    (Nat.repr r.StatusCode).toList ++ str "\x7d\n"

/-- The part of `http.Request` the plugin reads and mutates: the header map
and the URL's path and raw query. -/
structure Request where
  headers : Values
  path : List Char
  rawQuery : List Char
deriving DecidableEq

/-- The response the rejection branch writes: status code, `Content-Type`
header, body bytes. -/
structure HttpResponse where
  status : Nat
  contentType : List Char
  body : List Char
deriving DecidableEq

/-- Observable outcome of one `ServeHTTP` call.
`forwarded req key`: the downstream handler `ka.next` is invoked exactly
once, with the (possibly mutated) request `req`, after a method matched the
allow-list entry `key`; nothing is written to the response writer.
`rewritten req`: no match and `internalErrorRoute` is set — the request is
mutated to `req` and control returns without invoking downstream and
without writing a response.
`rejected req resp`: no match — the response `resp` is written and
downstream is never invoked (the request is left as `req`). -/
inductive Outcome where
  | forwarded : Request → List Char → Outcome
  | rewritten : Request → Outcome
  | rejected : Request → HttpResponse → Outcome
deriving DecidableEq

/-- `KeyAuth` from plugin.go (the `next` downstream handler is represented
by the `Outcome.forwarded` constructor rather than stored). -/
structure KeyAuth where
  authenticationHeader : Bool
  authenticationHeaderName : List Char
  bearerHeader : Bool
  bearerHeaderName : List Char
  queryParam : Bool
  queryParamName : List Char
  pathSegment : Bool
  removeQueryParamsOnSuccess : Bool
  keys : List (List Char)
  removeHeadersOnSuccess : Bool
  internalForwardHeaderName : List Char
  internalErrorRoute : List Char
deriving DecidableEq

/-- `New` from plugin.go: rejects an empty key list, then a configuration
with all four location toggles off; otherwise builds the `KeyAuth`. -/
def New (config : Config) : Except (List Char) KeyAuth :=
  if config.Keys.length = 0 then
    Except.error (str "must specify at least one valid key")
  else if config.AuthenticationHeader = false ∧ config.BearerHeader = false ∧
      config.QueryParam = false ∧ config.PathSegment = false then
    Except.error (str "at least one method must be true")
  else
    Except.ok
      { authenticationHeader := config.AuthenticationHeader
        authenticationHeaderName := config.AuthenticationHeaderName
        bearerHeader := config.BearerHeader
        bearerHeaderName := config.BearerHeaderName
        queryParam := config.QueryParam
        queryParamName := config.QueryParamName
        pathSegment := config.PathSegment
        removeQueryParamsOnSuccess := config.RemoveQueryParamsOnSuccess
        keys := config.Keys
        removeHeadersOnSuccess := config.RemoveHeadersOnSuccess
        internalForwardHeaderName := config.InternalForwardHeaderName
        internalErrorRoute := config.InternalErrorRoute }

/-- `(*KeyAuth).ok` from plugin.go: on success, add the forward header
(when configured) carrying the matched key, then invoke downstream once.
(The log line and the `RequestURI` refresh, which no later reader observes,
are not modelled.) -/
def ok (ka : KeyAuth) (req : Request) (key : List Char) : Outcome :=
  Outcome.forwarded
    (if ka.internalForwardHeaderName ≠ [] then
      { req with headers := headerAdd req.headers ka.internalForwardHeaderName key }
    else req)
    key

/-- `(*KeyAuth).ServeHTTP` from plugin.go: try the four extraction methods
in the fixed order header, bearer, query parameter, path segment; the first
enabled method whose matcher returns a non-empty key wins, applies its
mutation, and forwards via `ok`; otherwise either the error-route rewrite
or the 403 rejection happens. -/
def ServeHTTP (ka : KeyAuth) (req : Request) : Outcome :=
  let headerMatched := contains (headerGet req.headers ka.authenticationHeaderName) ka.keys true
  if ka.authenticationHeader = true ∧ headerMatched ≠ [] then
    ok ka
      (if ka.removeHeadersOnSuccess = true then
        { req with headers := headerDel req.headers ka.authenticationHeaderName }
      else req)
      headerMatched
  else
    let bearerMatched := bearer (headerGet req.headers ka.bearerHeaderName) ka.keys
    if ka.bearerHeader = true ∧ bearerMatched ≠ [] then
      ok ka
        (if ka.removeHeadersOnSuccess = true then
          { req with headers := headerDel req.headers ka.bearerHeaderName }
        else req)
        bearerMatched
    else
      let qs := parseQuery req.rawQuery
      let queryMatched := contains (valuesGet qs ka.queryParamName) ka.keys true
      if ka.queryParam = true ∧ queryMatched ≠ [] then
        ok ka
          { req with rawQuery :=
              (valuesEncode
                (if ka.removeQueryParamsOnSuccess = true then valuesDel qs ka.queryParamName
                  else qs)) }
          queryMatched
      else
        let pathMatched := contains req.path ka.keys false
        if ka.pathSegment = true ∧ pathMatched ≠ [] then
          ok ka req pathMatched
        else if ka.internalErrorRoute ≠ [] then
          Outcome.rewritten { req with path := ka.internalErrorRoute, rawQuery := [] }
        else
          Outcome.rejected req
            { status := 403
              contentType := str "application/json; charset=utf-8"
              body :=
                jsonEncodeResponse
                  { Message := str "Invalid or missing API Key", StatusCode := 403 } }

/-- Step 1 of the dispatch contract as a standalone attempt: the header
method — enabled toggle, exact match of the configured header's value,
header deleted on success when `removeHeadersOnSuccess` (mutations as the
code performs them). Yields the mutated request and the matched value. -/
def specAttemptHeader (ka : KeyAuth) (req : Request) : Option (Request × List Char) :=
  if ka.authenticationHeader = true then
    if contains (headerGet req.headers ka.authenticationHeaderName) ka.keys true ≠ [] then
      some
        (if ka.removeHeadersOnSuccess = true then
          { req with headers := headerDel req.headers ka.authenticationHeaderName }
        else req,
        contains (headerGet req.headers ka.authenticationHeaderName) ka.keys true)
    else none
  else none

/-- Step 2 of the dispatch contract as a standalone attempt: the bearer
method — enabled toggle, bearer extraction and exact match, bearer header
deleted on success when `removeHeadersOnSuccess`. -/
def specAttemptBearer (ka : KeyAuth) (req : Request) : Option (Request × List Char) :=
  if ka.bearerHeader = true then
    if bearer (headerGet req.headers ka.bearerHeaderName) ka.keys ≠ [] then
      some
        (if ka.removeHeadersOnSuccess = true then
          { req with headers := headerDel req.headers ka.bearerHeaderName }
        else req,
        bearer (headerGet req.headers ka.bearerHeaderName) ka.keys)
    else none
  else none

/-- Step 3 of the dispatch contract as a standalone attempt: the
query-parameter method — enabled toggle, exact match of the named
parameter, parameter deleted when `removeQueryParamsOnSuccess` and the
query string re-encoded (as the code performs it). -/
def specAttemptQuery (ka : KeyAuth) (req : Request) : Option (Request × List Char) :=
  if ka.queryParam = true then
    if contains (valuesGet (parseQuery req.rawQuery) ka.queryParamName) ka.keys true ≠ [] then
      some
        ({ req with rawQuery :=
            (valuesEncode
              (if ka.removeQueryParamsOnSuccess = true then
                valuesDel (parseQuery req.rawQuery) ka.queryParamName
                else parseQuery req.rawQuery)) },
         contains (valuesGet (parseQuery req.rawQuery) ka.queryParamName) ka.keys true)
    else none
  else none

/-- Step 4 of the dispatch contract as a standalone attempt: the
path-segment method — enabled toggle, substring match against the path,
no mutation. -/
def specAttemptPath (ka : KeyAuth) (req : Request) : Option (Request × List Char) :=
  if ka.pathSegment = true then
    if contains req.path ka.keys false ≠ [] then
      some (req, contains req.path ka.keys false)
    else none
  else none

/-- First successful attempt of an ordered list of attempts. -/
def firstSome : List (Option (Request × List Char)) → Option (Request × List Char)
  | [] => none
  | some x :: _ => some x
  | none :: rest => firstSome rest

/-- Modelled from the spec: the dispatch contract of §4.2 — the four
extraction methods are attempted in the fixed priority order header,
bearer, query parameter, path segment; an unmatched (or disabled) earlier
method does not stop later attempts; the FIRST successful attempt wins and
its mutated request and matched value are forwarded via `ok` exactly once;
when no attempt succeeds the failure handling (error-route rewrite or 403
rejection) applies. -/
def specDispatch (ka : KeyAuth) (req : Request) : Outcome :=
  match firstSome
      [specAttemptHeader ka req, specAttemptBearer ka req,
       specAttemptQuery ka req, specAttemptPath ka req] with
  | some (req2, k) => ok ka req2 k
  | none =>
    if ka.internalErrorRoute ≠ [] then
      Outcome.rewritten { req with path := ka.internalErrorRoute, rawQuery := [] }
    else
      Outcome.rejected req
        { status := 403
          contentType := str "application/json; charset=utf-8"
          body :=
            jsonEncodeResponse
              { Message := str "Invalid or missing API Key", StatusCode := 403 } }

/-- Configuration of the priority scenario: header and bearer enabled,
header removal on, single key `k1`. -/
def kaBearer : KeyAuth :=
  { authenticationHeader := true, authenticationHeaderName := str "K"
    bearerHeader := true, bearerHeaderName := str "A"
    queryParam := false, queryParamName := str "token"
    pathSegment := false, removeQueryParamsOnSuccess := true
    keys := [str "k1"], removeHeadersOnSuccess := true
    internalForwardHeaderName := [], internalErrorRoute := [] }

/-- Request of the priority scenario: header present but unmatched, bearer
header matching `k1`. -/
def reqBearer : Request :=
  { headers := [(str "K", [str "bad"]), (str "A", [str "Bearer k1"])]
    path := str "/x", rawQuery := [] }

/-- Configuration of the query scenario: only the query-parameter method
enabled and `removeQueryParamsOnSuccess` FALSE. -/
def kaQuery : KeyAuth :=
  { authenticationHeader := false, authenticationHeaderName := str "K"
    bearerHeader := false, bearerHeaderName := str "A"
    queryParam := true, queryParamName := str "token"
    pathSegment := false, removeQueryParamsOnSuccess := false
    keys := [str "k1"], removeHeadersOnSuccess := true
    internalForwardHeaderName := [], internalErrorRoute := [] }

/-- Request of the query scenario: matching token, with other parameters in
non-sorted order so that re-encoding is observable. -/
def reqQuery : Request :=
  { headers := [], path := str "/x", rawQuery := str "b=2&a=1&token=k1" }

/-- Configuration of the rejection scenario: everything enabled, no
internal error route. -/
def kaReject : KeyAuth :=
  { authenticationHeader := true, authenticationHeaderName := str "K"
    bearerHeader := true, bearerHeaderName := str "A"
    queryParam := true, queryParamName := str "token"
    pathSegment := true, removeQueryParamsOnSuccess := true
    keys := [str "k1"], removeHeadersOnSuccess := true
    internalForwardHeaderName := [], internalErrorRoute := [] }

/-- Request of the rejection scenario: no method matches. -/
def reqReject : Request :=
  { headers := [(str "K", [str "bad"]), (str "A", [str "Bearer nope"])]
    path := str "/public", rawQuery := str "token=bad" }

/-- Configuration of the override scenario: as `kaReject` but with the
internal error route `/denied`. -/
def kaRoute : KeyAuth :=
  { authenticationHeader := true, authenticationHeaderName := str "K"
    bearerHeader := true, bearerHeaderName := str "A"
    queryParam := true, queryParamName := str "token"
    pathSegment := true, removeQueryParamsOnSuccess := true
    keys := [str "k1"], removeHeadersOnSuccess := true
    internalForwardHeaderName := [], internalErrorRoute := str "/denied" }

/-- Request of the override scenario: no method matches, non-empty query. -/
def reqRoute : Request :=
  { headers := [(str "K", [str "bad"])], path := str "/orig", rawQuery := str "a=1" }

/-- Configuration of the forwarding scenario: header method only, forward
header `X-Auth-Key`, no header removal. -/
def kaForward : KeyAuth :=
  { authenticationHeader := true, authenticationHeaderName := str "K"
    bearerHeader := false, bearerHeaderName := str "A"
    queryParam := false, queryParamName := str "token"
    pathSegment := false, removeQueryParamsOnSuccess := true
    keys := [str "abc"], removeHeadersOnSuccess := false
    internalForwardHeaderName := str "X-Auth-Key", internalErrorRoute := [] }

/-- Request of the forwarding scenario: header matching `abc`. -/
def reqForward : Request :=
  { headers := [(str "K", [str "abc"])], path := str "/x", rawQuery := [] }

/-- The request the forwarding scenario hands downstream: the forward
header has been appended. -/
def reqForwardOut : Request :=
  { headers := [(str "K", [str "abc"]), (str "X-Auth-Key", [str "abc"])]
    path := str "/x", rawQuery := [] }

/-- Plain header-match configuration: header method only, no mutation. -/
def kaHeader : KeyAuth :=
  { authenticationHeader := true, authenticationHeaderName := str "K"
    bearerHeader := false, bearerHeaderName := str "A"
    queryParam := false, queryParamName := str "token"
    pathSegment := false, removeQueryParamsOnSuccess := true
    keys := [str "k1"], removeHeadersOnSuccess := false
    internalForwardHeaderName := [], internalErrorRoute := [] }

/-- Request with a matching header for `kaHeader`. -/
def reqHeader : Request :=
  { headers := [(str "K", [str "k1"])], path := str "/x", rawQuery := [] }

/-! Helper lemmas shared by the claim theorems. -/

/-- The empty string occurs as a substring of every string. -/
theorem containsSub_nil (c : List Char) : containsSub c [] = true := by
  cases c <;> rfl

/-- A non-empty result of `contains` is one of the valid keys. -/
theorem contains_ne_mem {c : List Char} {L : List (List Char)} {b : Bool}
    (h : contains c L b ≠ []) : contains c L b ∈ L := by
  induction L with
  | nil => exact absurd rfl h
  | cons a rest ih =>
    simp only [contains] at h ⊢
    by_cases hb : b = true
    · rw [if_pos hb] at h ⊢
      by_cases ha : a = c
      · rw [if_pos ha] at h ⊢
        exact List.mem_cons_self a rest
      · rw [if_neg ha] at h ⊢
        exact List.mem_cons_of_mem _ (ih h)
    · rw [if_neg hb] at h ⊢
      by_cases hs : containsSub c a = true
      · rw [if_pos hs] at h ⊢
        exact List.mem_cons_self a rest
      · rw [if_neg hs] at h ⊢
        exact List.mem_cons_of_mem _ (ih h)

/-- Exact matching of a key that is in the list returns that key. -/
theorem contains_exact_self {t : List Char} {L : List (List Char)} (h : t ∈ L) :
    contains t L true = t := by
  induction L with
  | nil => cases h
  | cons a rest ih =>
    simp only [contains, if_pos rfl]
    by_cases ha : a = t
    · rw [if_pos ha]
      exact ha
    · rw [if_neg ha]
      exact ih ((List.mem_cons.mp h).resolve_left fun hh => ha hh.symm)

/-- The empty candidate never produces a non-empty exact match: even when
the empty string is a valid key, the returned value is the sentinel. -/
theorem contains_nil_exact (L : List (List Char)) : contains [] L true = [] := by
  induction L with
  | nil => rfl
  | cons a rest ih =>
    simp only [contains, if_pos rfl]
    by_cases ha : a = []
    · rw [if_pos ha]
      exact ha
    · rw [if_neg ha]
      exact ih

/-- The greedy `[^$]+` capture keeps a dollar-free string whole. -/
theorem takeNonDollar_eq_self {t : List Char} (h : '$' ∉ t) : takeNonDollar t = t := by
  induction t with
  | nil => rfl
  | cons c rest ih =>
    have hc : ¬c = '$' := fun hh => h (hh ▸ List.mem_cons_self c rest)
    rw [takeNonDollar, if_neg hc, ih fun hm => h (List.mem_cons_of_mem _ hm)]

/-- A non-empty result of `bearer` is one of the valid keys. -/
theorem bearer_ne_mem {s : List Char} {L : List (List Char)} (h : bearer s L ≠ []) :
    bearer s L ∈ L := by
  unfold bearer at h ⊢
  cases hs : bearerScan s with
  | none => rw [hs] at h; exact absurd rfl h
  | some k => rw [hs] at h; exact contains_ne_mem h

/-- Adding a value under a key appends it to that key's value slice. -/
theorem valuesLookup_add_self (m : Values) (k v : List Char) :
    valuesLookup (valuesAdd m k v) k = valuesLookup m k ++ [v] := by
  induction m with
  | nil => simp [valuesAdd, valuesLookup]
  | cons p rest ih =>
    obtain ⟨k', vs⟩ := p
    by_cases hk : k' = k
    · simp [valuesAdd, valuesLookup, hk]
    · simp [valuesAdd, valuesLookup, hk, ih]

/-- Deleting a key empties its slice and leaves every other key alone. -/
theorem valuesLookup_del (m : Values) (k n : List Char) :
    valuesLookup (valuesDel m k) n = if n = k then [] else valuesLookup m n := by
  induction m with
  | nil => simp [valuesDel, valuesLookup]
  | cons p rest ih =>
    obtain ⟨k', vs⟩ := p
    by_cases hk : k' = k <;> by_cases hn : n = k <;> by_cases hm : k' = n <;>
      simp_all [valuesDel, valuesLookup]

/-- A successful `bearerCapture` means the string starts with `Bearer`,
one whitespace character, and a non-empty remainder. -/
theorem bearerCapture_shape {s k : List Char} (h : bearerCapture s = some k) :
    ∃ w rest, s = str "Bearer" ++ w :: rest ∧ goWhitespace w = true ∧ rest ≠ [] := by
  match s with
  | [] => simp [bearerCapture] at h
  | [b1] => simp [bearerCapture] at h
  | [b1, b2] => simp [bearerCapture] at h
  | [b1, b2, b3] => simp [bearerCapture] at h
  | [b1, b2, b3, b4] => simp [bearerCapture] at h
  | [b1, b2, b3, b4, b5] => simp [bearerCapture] at h
  | [b1, b2, b3, b4, b5, b6] => simp [bearerCapture] at h
  | [b1, b2, b3, b4, b5, b6, w] => simp [bearerCapture] at h
  | b1 :: b2 :: b3 :: b4 :: b5 :: b6 :: w :: c :: rest =>
    rw [bearerCapture] at h
    by_cases hcond : [b1, b2, b3, b4, b5, b6] = str "Bearer" ∧ goWhitespace w = true ∧ c ≠ '$'
    · refine ⟨w, c :: rest, ?_, hcond.2.1, List.cons_ne_nil c rest⟩
      rw [← hcond.1]
      rfl
    · rw [if_neg hcond] at h
      cases h

/-- A successful leftmost regex scan means the string contains `Bearer`,
one whitespace character and a non-empty token somewhere inside it. -/
theorem bearerScan_shape {s k : List Char} (h : bearerScan s = some k) :
    ∃ pre w rest, s = pre ++ str "Bearer" ++ w :: rest ∧ goWhitespace w = true ∧ rest ≠ [] := by
  induction s with
  | nil => cases h
  | cons c t ih =>
    rw [bearerScan] at h
    cases hc : bearerCapture (c :: t) with
    | some k' =>
      obtain ⟨w, rest, hs, hw, hr⟩ := bearerCapture_shape hc
      exact ⟨[], w, rest, by simpa using hs, hw, hr⟩
    | none =>
      rw [hc] at h
      obtain ⟨pre, w, rest, hs, hw, hr⟩ := ih h
      exact ⟨c :: pre, w, rest, by simp [hs], hw, hr⟩

/-- The header attempt succeeds exactly under the first guard of
`ServeHTTP`. -/
theorem specAttemptHeader_pos (ka : KeyAuth) (req : Request)
    (h : ka.authenticationHeader = true ∧
      contains (headerGet req.headers ka.authenticationHeaderName) ka.keys true ≠ []) :
    specAttemptHeader ka req =
      some
        (if ka.removeHeadersOnSuccess = true then
          { req with headers := headerDel req.headers ka.authenticationHeaderName }
        else req,
        contains (headerGet req.headers ka.authenticationHeaderName) ka.keys true) := by
  rw [specAttemptHeader, if_pos h.1, if_pos h.2]

/-- The header attempt fails when disabled or unmatched. -/
theorem specAttemptHeader_neg (ka : KeyAuth) (req : Request)
    (h : ¬(ka.authenticationHeader = true ∧
      contains (headerGet req.headers ka.authenticationHeaderName) ka.keys true ≠ [])) :
    specAttemptHeader ka req = none := by
  rw [specAttemptHeader]
  by_cases hA : ka.authenticationHeader = true
  · rw [if_pos hA, if_neg fun hm => h ⟨hA, hm⟩]
  · rw [if_neg hA]

/-- The bearer attempt succeeds exactly under the second guard of
`ServeHTTP`. -/
theorem specAttemptBearer_pos (ka : KeyAuth) (req : Request)
    (h : ka.bearerHeader = true ∧
      bearer (headerGet req.headers ka.bearerHeaderName) ka.keys ≠ []) :
    specAttemptBearer ka req =
      some
        (if ka.removeHeadersOnSuccess = true then
          { req with headers := headerDel req.headers ka.bearerHeaderName }
        else req,
        bearer (headerGet req.headers ka.bearerHeaderName) ka.keys) := by
  rw [specAttemptBearer, if_pos h.1, if_pos h.2]

/-- The bearer attempt fails when disabled or unmatched. -/
theorem specAttemptBearer_neg (ka : KeyAuth) (req : Request)
    (h : ¬(ka.bearerHeader = true ∧
      bearer (headerGet req.headers ka.bearerHeaderName) ka.keys ≠ [])) :
    specAttemptBearer ka req = none := by
  rw [specAttemptBearer]
  by_cases hA : ka.bearerHeader = true
  · rw [if_pos hA, if_neg fun hm => h ⟨hA, hm⟩]
  · rw [if_neg hA]

/-- The query attempt succeeds exactly under the third guard of
`ServeHTTP`. -/
theorem specAttemptQuery_pos (ka : KeyAuth) (req : Request)
    (h : ka.queryParam = true ∧
      contains (valuesGet (parseQuery req.rawQuery) ka.queryParamName) ka.keys true ≠ []) :
    specAttemptQuery ka req =
      some
        ({ req with rawQuery :=
            (valuesEncode
              (if ka.removeQueryParamsOnSuccess = true then
                valuesDel (parseQuery req.rawQuery) ka.queryParamName
                else parseQuery req.rawQuery)) },
         contains (valuesGet (parseQuery req.rawQuery) ka.queryParamName) ka.keys true) := by
  rw [specAttemptQuery, if_pos h.1, if_pos h.2]

/-- The query attempt fails when disabled or unmatched. -/
theorem specAttemptQuery_neg (ka : KeyAuth) (req : Request)
    (h : ¬(ka.queryParam = true ∧
      contains (valuesGet (parseQuery req.rawQuery) ka.queryParamName) ka.keys true ≠ [])) :
    specAttemptQuery ka req = none := by
  rw [specAttemptQuery]
  by_cases hA : ka.queryParam = true
  · rw [if_pos hA, if_neg fun hm => h ⟨hA, hm⟩]
  · rw [if_neg hA]

/-- The path attempt succeeds exactly under the fourth guard of
`ServeHTTP`. -/
theorem specAttemptPath_pos (ka : KeyAuth) (req : Request)
    (h : ka.pathSegment = true ∧ contains req.path ka.keys false ≠ []) :
    specAttemptPath ka req = some (req, contains req.path ka.keys false) := by
  rw [specAttemptPath, if_pos h.1, if_pos h.2]

/-- The path attempt fails when disabled or unmatched. -/
theorem specAttemptPath_neg (ka : KeyAuth) (req : Request)
    (h : ¬(ka.pathSegment = true ∧ contains req.path ka.keys false ≠ [])) :
    specAttemptPath ka req = none := by
  rw [specAttemptPath]
  by_cases hA : ka.pathSegment = true
  · rw [if_pos hA, if_neg fun hm => h ⟨hA, hm⟩]
  · rw [if_neg hA]

/-- Inversion of a forwarding outcome of `ServeHTTP`: the matched key is
non-empty and is one of the valid keys, and the downstream request is the
`ok` image of the incoming request with at most one header key deleted. -/
theorem serve_forwarded_inv (ka : KeyAuth) (req r : Request) (k : List Char)
    (h : ServeHTTP ka req = Outcome.forwarded r k) :
    k ≠ [] ∧ k ∈ ka.keys ∧
      ∃ req2 : Request, ok ka req2 k = Outcome.forwarded r k ∧
        (req2.headers = req.headers ∨ ∃ n, req2.headers = valuesDel req.headers n) := by
  simp only [ServeHTTP] at h
  by_cases g1 : ka.authenticationHeader = true ∧
      contains (headerGet req.headers ka.authenticationHeaderName) ka.keys true ≠ []
  · rw [if_pos g1] at h
    unfold ok at h
    injection h with hreq hkey
    refine ⟨hkey ▸ g1.2, hkey ▸ contains_ne_mem g1.2,
      (if ka.removeHeadersOnSuccess = true then
        { req with headers := headerDel req.headers ka.authenticationHeaderName }
      else req), ?_, ?_⟩
    · unfold ok
      rw [hkey] at hreq
      rw [hreq]
    · by_cases hr : ka.removeHeadersOnSuccess = true
      · rw [if_pos hr]
        exact Or.inr ⟨canonicalMIMEHeaderKey ka.authenticationHeaderName, rfl⟩
      · rw [if_neg hr]
        exact Or.inl rfl
  · rw [if_neg g1] at h
    by_cases g2 : ka.bearerHeader = true ∧
        bearer (headerGet req.headers ka.bearerHeaderName) ka.keys ≠ []
    · rw [if_pos g2] at h
      unfold ok at h
      injection h with hreq hkey
      refine ⟨hkey ▸ g2.2, hkey ▸ bearer_ne_mem g2.2,
        (if ka.removeHeadersOnSuccess = true then
          { req with headers := headerDel req.headers ka.bearerHeaderName }
        else req), ?_, ?_⟩
      · unfold ok
        rw [hkey] at hreq
        rw [hreq]
      · by_cases hr : ka.removeHeadersOnSuccess = true
        · rw [if_pos hr]
          exact Or.inr ⟨canonicalMIMEHeaderKey ka.bearerHeaderName, rfl⟩
        · rw [if_neg hr]
          exact Or.inl rfl
    · rw [if_neg g2] at h
      by_cases g3 : ka.queryParam = true ∧
          contains (valuesGet (parseQuery req.rawQuery) ka.queryParamName) ka.keys true ≠ []
      · rw [if_pos g3] at h
        unfold ok at h
        injection h with hreq hkey
        refine ⟨hkey ▸ g3.2, hkey ▸ contains_ne_mem g3.2,
          { req with rawQuery :=
              (valuesEncode
                (if ka.removeQueryParamsOnSuccess = true then
                  valuesDel (parseQuery req.rawQuery) ka.queryParamName
                  else parseQuery req.rawQuery)) }, ?_, Or.inl rfl⟩
        unfold ok
        rw [hkey] at hreq
        rw [hreq]
      · rw [if_neg g3] at h
        by_cases g4 : ka.pathSegment = true ∧ contains req.path ka.keys false ≠ []
        · rw [if_pos g4] at h
          unfold ok at h
          injection h with hreq hkey
          refine ⟨hkey ▸ g4.2, hkey ▸ contains_ne_mem g4.2, req, ?_, Or.inl rfl⟩
          unfold ok
          rw [hkey] at hreq
          rw [hreq]
        · rw [if_neg g4] at h
          by_cases g5 : ka.internalErrorRoute ≠ []
          · rw [if_pos g5] at h
            cases h
          · rw [if_neg g5] at h
            cases h

/-! Claim theorems. -/

/-- C2 counterexample: with two spaces after `Bearer`, the greedy capture of
`Bearer\s(?P<key>[^$]+)` includes the second space, so the extracted token
`" abc123"` fails the exact comparison against `"abc123"`: multiple spaces
are NOT tolerated, contrary to the claim. -/
theorem bearer_double_space_counterexample :
    bearer (str "Bearer  abc123") [str "abc123"] = [] ∧
      bearer (str "Bearer  abc123") [str "abc123"] ≠ str "abc123" := by
  decide

/-- C2 (amended): for a non-empty token `t` containing no `$`, `bearer`
applied to `Bearer` followed by exactly ONE whitespace character and `t`
returns `t` whenever `t` is in the allow-list. -/
theorem bearer_single_whitespace_token (w : Char) (t : List Char) (L : List (List Char))
    (hw : goWhitespace w = true) (ht : t ≠ []) (hd : '$' ∉ t) (hmem : t ∈ L) :
    bearer (str "Bearer" ++ w :: t) L = t := by
  cases t with
  | nil => exact absurd rfl ht
  | cons c rest =>
    have hc : c ≠ '$' := fun hh => hd (hh ▸ List.mem_cons_self c rest)
    have hcap : bearerCapture ('B' :: 'e' :: 'a' :: 'r' :: 'e' :: 'r' :: w :: c :: rest) =
        some (c :: rest) := by
      rw [bearerCapture, if_pos ⟨by decide, hw, hc⟩, takeNonDollar_eq_self hd]
    have hscan : bearerScan ('B' :: 'e' :: 'a' :: 'r' :: 'e' :: 'r' :: w :: c :: rest) =
        some (c :: rest) := by
      rw [bearerScan, hcap]
    show bearer ('B' :: 'e' :: 'a' :: 'r' :: 'e' :: 'r' :: w :: c :: rest) L = c :: rest
    rw [bearer, hscan]
    exact contains_exact_self hmem

/-- C2 witness: the amended statement evaluated at a concrete token. -/
theorem bearer_single_whitespace_token_witness :
    bearer (str "Bearer" ++ ' ' :: str "k1") [str "k1"] = str "k1" :=
  bearer_single_whitespace_token ' ' (str "k1") [str "k1"] (by decide) (by decide)
    (by decide) (by decide)

/-- C3 counterexample: the regular expression is unanchored, so a header
value that does NOT have the shape `Bearer` + whitespace + token as a whole
(here it starts with `Not`) still yields a match. -/
theorem bearer_unanchored_counterexample :
    bearer (str "NotBearer abc") [str "abc"] = str "abc" := by
  decide

/-- C3 (amended): the two concrete examples do return the no-match
sentinel, and a match requires an occurrence of `Bearer` + one whitespace +
a non-empty token SOMEWHERE in the value (not necessarily spanning the
whole value, because the regular expression is unanchored). -/
theorem bearer_requires_embedded_shape :
    (∀ L, bearer (str "Basic abc123") L = []) ∧
    (∀ L, bearer (str "Bearerabc123") L = []) ∧
    (∀ s L, bearer s L ≠ [] →
      ∃ pre w rest, s = pre ++ str "Bearer" ++ w :: rest ∧
        goWhitespace w = true ∧ rest ≠ []) := by
  refine ⟨?_, ?_, ?_⟩
  · intro L
    rw [bearer, show bearerScan (str "Basic abc123") = none from by decide]
  · intro L
    rw [bearer, show bearerScan (str "Bearerabc123") = none from by decide]
  · intro s L h
    rw [bearer] at h
    cases hs : bearerScan s with
    | none => rw [hs] at h; exact absurd rfl h
    | some k => exact bearerScan_shape hs

/-- C3 witness: the amended statement evaluated concretely. -/
theorem bearer_requires_embedded_shape_witness :
    (∃ pre w rest, str "NotBearer abc" = pre ++ str "Bearer" ++ w :: rest ∧
      goWhitespace w = true ∧ rest ≠ []) ∧
    bearer (str "Basic abc123") [str "abc"] = [] :=
  ⟨bearer_requires_embedded_shape.2.2 (str "NotBearer abc") [str "abc"] (by decide),
   bearer_requires_embedded_shape.1 [str "abc"]⟩

/-- C5: construction fails exactly when the key list is empty or all four
location toggles are false, and succeeds (producing a handler) exactly
otherwise. -/
theorem new_succeeds_iff (config : Config) :
    ((∃ e, New config = Except.error e) ↔
      (config.Keys = [] ∨ (config.AuthenticationHeader = false ∧
        config.BearerHeader = false ∧ config.QueryParam = false ∧
        config.PathSegment = false))) ∧
    ((∃ ka, New config = Except.ok ka) ↔
      (config.Keys ≠ [] ∧ (config.AuthenticationHeader = true ∨
        config.BearerHeader = true ∨ config.QueryParam = true ∨
        config.PathSegment = true))) := by
  unfold New
  by_cases h1 : config.Keys.length = 0
  · have hk : config.Keys = [] := List.length_eq_zero.mp h1
    rw [if_pos h1]
    constructor
    · exact ⟨fun _ => Or.inl hk, fun _ => ⟨_, rfl⟩⟩
    · constructor
      · rintro ⟨ka, hka⟩
        cases hka
      · rintro ⟨hne, -⟩
        exact absurd hk hne
  · have hk : config.Keys ≠ [] := fun hh => h1 (by rw [hh]; rfl)
    rw [if_neg h1]
    by_cases h2 : config.AuthenticationHeader = false ∧ config.BearerHeader = false ∧
        config.QueryParam = false ∧ config.PathSegment = false
    · rw [if_pos h2]
      constructor
      · exact ⟨fun _ => Or.inr h2, fun _ => ⟨_, rfl⟩⟩
      · constructor
        · rintro ⟨ka, hka⟩
          cases hka
        · rintro ⟨-, htog⟩
          obtain ⟨ha, hb, hq, hp⟩ := h2
          rcases htog with ht | ht | ht | ht <;> simp_all
    · rw [if_neg h2]
      constructor
      · constructor
        · rintro ⟨e, he⟩
          cases he
        · rintro (hkeys | hall)
          · exact absurd hkeys hk
          · exact absurd hall h2
      · constructor
        · intro _
          refine ⟨hk, ?_⟩
          rcases Bool.eq_false_or_eq_true config.AuthenticationHeader with ha | ha
          · exact Or.inl ha
          · rcases Bool.eq_false_or_eq_true config.BearerHeader with hb | hb
            · exact Or.inr (Or.inl hb)
            · rcases Bool.eq_false_or_eq_true config.QueryParam with hq | hq
              · exact Or.inr (Or.inr (Or.inl hq))
              · rcases Bool.eq_false_or_eq_true config.PathSegment with hp | hp
                · exact Or.inr (Or.inr (Or.inr hp))
                · exact absurd ⟨ha, hb, hq, hp⟩ h2
        · intro _
          exact ⟨_, rfl⟩

/-- C8 counterexample: the empty string as an allow-list entry is a
substring of `"abc"`, yet `contains` returns the empty string — the
no-match sentinel — so "returns none iff no member is a substring" fails
for allow-lists containing the empty entry. -/
theorem substring_empty_entry_counterexample :
    contains (str "abc") [[]] false = [] ∧ containsSub (str "abc") [] = true ∧
      ([] : List Char) ∈ [([] : List Char)] := by
  decide

/-- C8 (amended): for every allow-list not containing the empty string,
`contains c L false` returns the no-match sentinel iff no member of L is a
substring of c, and a non-empty result is the FIRST member of L (in list
order) that is a substring of c. -/
theorem substring_match_first_of_nonempty (c : List Char) (L : List (List Char))
    (hne : [] ∉ L) :
    (contains c L false = [] ↔ ∀ a ∈ L, containsSub c a = false) ∧
    (contains c L false ≠ [] →
      contains c L false ∈ L ∧ containsSub c (contains c L false) = true ∧
      ∃ pre suf, L = pre ++ contains c L false :: suf ∧
        ∀ a ∈ pre, containsSub c a = false) := by
  induction L with
  | nil =>
    exact ⟨⟨fun _ a ha => absurd ha (List.not_mem_nil a), fun _ => rfl⟩,
      fun h => absurd rfl h⟩
  | cons a rest ih =>
    have ha : a ≠ [] := fun hh => hne (hh ▸ List.mem_cons_self a rest)
    have hne2 : [] ∉ rest := fun hh => hne (List.mem_cons_of_mem _ hh)
    obtain ⟨ih1, ih2⟩ := ih hne2
    by_cases hs : containsSub c a = true
    · have hca : contains c (a :: rest) false = a := by
        simp only [contains]
        rw [if_neg (by decide : ¬(false = true)), if_pos hs]
      constructor
      · rw [hca]
        constructor
        · intro h
          exact absurd h ha
        · intro h
          have hfa := h a (List.mem_cons_self a rest)
          rw [hs] at hfa
          cases hfa
      · intro _
        rw [hca]
        exact ⟨List.mem_cons_self a rest, hs, [], rest, rfl,
          fun x hx => absurd hx (List.not_mem_nil x)⟩
    · have hsf : containsSub c a = false := by
        cases hcs : containsSub c a
        · rfl
        · exact absurd hcs hs
      have hca : contains c (a :: rest) false = contains c rest false := by
        simp only [contains]
        rw [if_neg (by decide : ¬(false = true)), if_neg hs]
      constructor
      · rw [hca, ih1]
        constructor
        · intro h x hx
          rcases List.mem_cons.mp hx with hxa | hxr
          · rw [hxa]
            exact hsf
          · exact h x hxr
        · intro h x hx
          exact h x (List.mem_cons_of_mem _ hx)
      · intro h
        rw [hca] at h ⊢
        obtain ⟨hm, hcs, pre, suf, hL, hpre⟩ := ih2 h
        refine ⟨List.mem_cons_of_mem _ hm, hcs, a :: pre, suf,
          by rw [List.cons_append, ← hL], ?_⟩
        intro x hx
        rcases List.mem_cons.mp hx with hxa | hxp
        · rw [hxa]
          exact hsf
        · exact hpre x hxp

/-- C8 witness: the amended statement evaluated at a concrete candidate and
allow-list with no empty entry. -/
theorem substring_match_first_of_nonempty_witness :
    ((contains (str "xabcy") [str "zz", str "abc"] false = [] ↔
      ∀ a ∈ [str "zz", str "abc"], containsSub (str "xabcy") a = false) ∧
    (contains (str "xabcy") [str "zz", str "abc"] false ≠ [] →
      contains (str "xabcy") [str "zz", str "abc"] false ∈ [str "zz", str "abc"] ∧
      containsSub (str "xabcy") (contains (str "xabcy") [str "zz", str "abc"] false) = true ∧
      ∃ pre suf, [str "zz", str "abc"] =
          pre ++ contains (str "xabcy") [str "zz", str "abc"] false :: suf ∧
        ∀ a ∈ pre, containsSub (str "xabcy") a = false)) :=
  substring_match_first_of_nonempty (str "xabcy") [str "zz", str "abc"] (by decide)

/-- C1: `ServeHTTP` IS the spec's first-match dispatcher — the four
methods are attempted in the fixed order header, bearer, query parameter,
path segment; an enabled-but-unmatched earlier method does not stop later
attempts; the first successful method short-circuits, forwarding
downstream exactly once with its matched value. In particular (second
conjunct), when the header method does not match and the bearer method is
enabled and matches `k`, the request is forwarded via `ok` with matched
value `k`, the bearer header removed exactly when
`removeHeadersOnSuccess`. -/
theorem dispatch_first_match :
    (∀ ka req, ServeHTTP ka req = specDispatch ka req) ∧
    (∀ (ka : KeyAuth) (req : Request) (k : List Char),
      contains (headerGet req.headers ka.authenticationHeaderName) ka.keys true = [] →
      ka.bearerHeader = true →
      bearer (headerGet req.headers ka.bearerHeaderName) ka.keys = k →
      k ≠ [] →
      ServeHTTP ka req =
        ok ka
          (if ka.removeHeadersOnSuccess = true then
            { req with headers := headerDel req.headers ka.bearerHeaderName }
          else req) k) := by
  constructor
  · intro ka req
    simp only [ServeHTTP, specDispatch]
    by_cases g1 : ka.authenticationHeader = true ∧
        contains (headerGet req.headers ka.authenticationHeaderName) ka.keys true ≠ []
    · rw [if_pos g1, specAttemptHeader_pos ka req g1]
      simp only [firstSome]
    · rw [if_neg g1, specAttemptHeader_neg ka req g1]
      simp only [firstSome]
      by_cases g2 : ka.bearerHeader = true ∧
          bearer (headerGet req.headers ka.bearerHeaderName) ka.keys ≠ []
      · rw [if_pos g2, specAttemptBearer_pos ka req g2]
        simp only [firstSome]
      · rw [if_neg g2, specAttemptBearer_neg ka req g2]
        simp only [firstSome]
        by_cases g3 : ka.queryParam = true ∧
            contains (valuesGet (parseQuery req.rawQuery) ka.queryParamName) ka.keys true ≠ []
        · rw [if_pos g3, specAttemptQuery_pos ka req g3]
          simp only [firstSome]
        · rw [if_neg g3, specAttemptQuery_neg ka req g3]
          simp only [firstSome]
          by_cases g4 : ka.pathSegment = true ∧ contains req.path ka.keys false ≠ []
          · rw [if_pos g4, specAttemptPath_pos ka req g4]
            simp only [firstSome]
          · rw [if_neg g4, specAttemptPath_neg ka req g4]
            simp only [firstSome]
  · intro ka req k h1 h2 h3 h4
    simp only [ServeHTTP]
    rw [if_neg fun g => g.2 h1, h3, if_pos ⟨h2, h4⟩]

/-- C1 witness: the spec's priority scenario — header enabled and
unmatched, bearer enabled and matching `k1`, bearer header removed. -/
theorem dispatch_first_match_witness :
    ServeHTTP kaBearer reqBearer =
      ok kaBearer
        (if kaBearer.removeHeadersOnSuccess = true then
          { reqBearer with headers := headerDel reqBearer.headers kaBearer.bearerHeaderName }
        else reqBearer) (str "k1") :=
  dispatch_first_match.2 kaBearer reqBearer (str "k1") (by decide) (by decide)
    (by decide) (by decide)

/-- C4 counterexample: with `removeQueryParamsOnSuccess` false, a
query-parameter match still re-encodes the query string (Go always assigns
`req.URL.RawQuery = qs.Encode()` in this branch), so the raw query is NOT
left unchanged: `b=2&a=1&token=k1` becomes the key-sorted
`a=1&b=2&token=k1`. -/
theorem query_not_removed_still_reencoded_counterexample :
    ServeHTTP kaQuery reqQuery =
      Outcome.forwarded { reqQuery with rawQuery := str "a=1&b=2&token=k1" } (str "k1") ∧
      str "a=1&b=2&token=k1" ≠ reqQuery.rawQuery := by
  decide

/-- C4 (amended): when the query-parameter method is the first to match,
the named parameter is deleted from the parsed query exactly when
`removeQueryParamsOnSuccess` is true, but in BOTH cases the raw query
string is re-parsed and re-encoded before forwarding (so it can change —
e.g. be key-sorted — even when the flag is false). -/
theorem query_match_reencodes (ka : KeyAuth) (req : Request)
    (h1 : ¬(ka.authenticationHeader = true ∧
      contains (headerGet req.headers ka.authenticationHeaderName) ka.keys true ≠ []))
    (h2 : ¬(ka.bearerHeader = true ∧
      bearer (headerGet req.headers ka.bearerHeaderName) ka.keys ≠ []))
    (h3 : ka.queryParam = true ∧
      contains (valuesGet (parseQuery req.rawQuery) ka.queryParamName) ka.keys true ≠ []) :
    ServeHTTP ka req =
      ok ka
        { req with rawQuery :=
            (valuesEncode
              (if ka.removeQueryParamsOnSuccess = true then
                valuesDel (parseQuery req.rawQuery) ka.queryParamName
                else parseQuery req.rawQuery)) }
        (contains (valuesGet (parseQuery req.rawQuery) ka.queryParamName) ka.keys true) := by
  simp only [ServeHTTP]
  rw [if_neg h1, if_neg h2, if_pos h3]

/-- C4 witness: the amended statement evaluated at the concrete query
scenario with the removal flag off. -/
theorem query_match_reencodes_witness :
    ServeHTTP kaQuery reqQuery =
      ok kaQuery
        { reqQuery with rawQuery :=
            (valuesEncode
              (if kaQuery.removeQueryParamsOnSuccess = true then
                valuesDel (parseQuery reqQuery.rawQuery) kaQuery.queryParamName
                else parseQuery reqQuery.rawQuery)) }
        (contains (valuesGet (parseQuery reqQuery.rawQuery) kaQuery.queryParamName)
          kaQuery.keys true) :=
  query_match_reencodes kaQuery reqQuery (by decide) (by decide) (by decide)

/-- C6 counterexample: the rejection body is the JSON object FOLLOWED BY A
NEWLINE (Go's `json.Encoder.Encode` terminates the stream), so it is not
byte-for-byte the claimed `…403}` alone. -/
theorem reject_body_newline_counterexample :
    ServeHTTP kaReject reqReject =
      Outcome.rejected reqReject
        { status := 403, contentType := str "application/json; charset=utf-8"
          body := str "\x7b\"message\":\"Invalid or missing API Key\",\"status_code\":403\x7d\n" } ∧
    str "\x7b\"message\":\"Invalid or missing API Key\",\"status_code\":403\x7d\n" ≠
      str "\x7b\"message\":\"Invalid or missing API Key\",\"status_code\":403\x7d" := by
  decide

/-- C6 (amended): when no enabled method matches and the internal error
route is empty, `ServeHTTP` writes status 403 with content type
`application/json; charset=utf-8` and body the fixed JSON object followed
by a newline, and never invokes the downstream handler. -/
theorem reject_403_response (ka : KeyAuth) (req : Request)
    (h1 : ¬(ka.authenticationHeader = true ∧
      contains (headerGet req.headers ka.authenticationHeaderName) ka.keys true ≠ []))
    (h2 : ¬(ka.bearerHeader = true ∧
      bearer (headerGet req.headers ka.bearerHeaderName) ka.keys ≠ []))
    (h3 : ¬(ka.queryParam = true ∧
      contains (valuesGet (parseQuery req.rawQuery) ka.queryParamName) ka.keys true ≠ []))
    (h4 : ¬(ka.pathSegment = true ∧ contains req.path ka.keys false ≠ []))
    (h5 : ka.internalErrorRoute = []) :
    ServeHTTP ka req =
      Outcome.rejected req
        { status := 403, contentType := str "application/json; charset=utf-8"
          body := str "\x7b\"message\":\"Invalid or missing API Key\",\"status_code\":403\x7d\n" } := by
  simp only [ServeHTTP]
  rw [if_neg h1, if_neg h2, if_neg h3, if_neg h4, if_neg fun g => g h5,
    show jsonEncodeResponse { Message := str "Invalid or missing API Key", StatusCode := 403 } =
      str "\x7b\"message\":\"Invalid or missing API Key\",\"status_code\":403\x7d\n" from by decide]

/-- C6 witness: the amended rejection statement at the concrete
no-match scenario. -/
theorem reject_403_response_witness :
    ServeHTTP kaReject reqReject =
      Outcome.rejected reqReject
        { status := 403, contentType := str "application/json; charset=utf-8"
          body := str "\x7b\"message\":\"Invalid or missing API Key\",\"status_code\":403\x7d\n" } :=
  reject_403_response kaReject reqReject (by decide) (by decide) (by decide) (by decide)
    (by decide)

/-- C7: when no enabled method matches and the internal error route is
non-empty, the request's path is replaced by the route and its query
string cleared, no response is written and downstream is not invoked
(the `Outcome.rewritten` constructor). -/
theorem error_route_rewrite (ka : KeyAuth) (req : Request)
    (h1 : ¬(ka.authenticationHeader = true ∧
      contains (headerGet req.headers ka.authenticationHeaderName) ka.keys true ≠ []))
    (h2 : ¬(ka.bearerHeader = true ∧
      bearer (headerGet req.headers ka.bearerHeaderName) ka.keys ≠ []))
    (h3 : ¬(ka.queryParam = true ∧
      contains (valuesGet (parseQuery req.rawQuery) ka.queryParamName) ka.keys true ≠ []))
    (h4 : ¬(ka.pathSegment = true ∧ contains req.path ka.keys false ≠ []))
    (h5 : ka.internalErrorRoute ≠ []) :
    ServeHTTP ka req =
      Outcome.rewritten { req with path := ka.internalErrorRoute, rawQuery := [] } := by
  simp only [ServeHTTP]
  rw [if_neg h1, if_neg h2, if_neg h3, if_neg h4, if_pos h5]

/-- C7 witness: the override scenario with route `/denied` and a non-empty
incoming query. -/
theorem error_route_rewrite_witness :
    ServeHTTP kaRoute reqRoute =
      Outcome.rewritten { reqRoute with path := kaRoute.internalErrorRoute, rawQuery := [] } :=
  error_route_rewrite kaRoute reqRoute (by decide) (by decide) (by decide) (by decide)
    (by decide)

/-- C9: whenever `ServeHTTP` forwards with matched key `k`, `k` is one of
the configured allow-list entries (the matched entry itself, not the raw
candidate); if the forward header name is non-empty the downstream request
carries `k` under that (canonicalized) name, and if it is empty no header
is added — every header slice downstream is either the incoming one or
empty (deleted). -/
theorem forward_header_carries_matched_key (ka : KeyAuth) (req r : Request) (k : List Char)
    (h : ServeHTTP ka req = Outcome.forwarded r k) :
    k ∈ ka.keys ∧
    (ka.internalForwardHeaderName ≠ [] →
      k ∈ valuesLookup r.headers (canonicalMIMEHeaderKey ka.internalForwardHeaderName)) ∧
    (ka.internalForwardHeaderName = [] →
      ∀ n, valuesLookup r.headers n = valuesLookup req.headers n ∨
        valuesLookup r.headers n = []) := by
  obtain ⟨hk, hmem, req2, hok, hhd⟩ := serve_forwarded_inv ka req r k h
  unfold ok at hok
  injection hok with hreq hkey
  refine ⟨hmem, ?_, ?_⟩
  · intro hf
    rw [if_pos hf] at hreq
    rw [← hreq]
    show k ∈ valuesLookup
      (valuesAdd req2.headers (canonicalMIMEHeaderKey ka.internalForwardHeaderName) k)
      (canonicalMIMEHeaderKey ka.internalForwardHeaderName)
    rw [valuesLookup_add_self]
    exact List.mem_append_right _ (by simp)
  · intro hf
    rw [if_neg fun g => g hf] at hreq
    subst hreq
    intro n
    rcases hhd with hsame | ⟨m, hdel⟩
    · rw [hsame]
      exact Or.inl rfl
    · rw [hdel, valuesLookup_del]
      by_cases hn : n = m
      · rw [if_pos hn]
        exact Or.inr rfl
      · rw [if_neg hn]
        exact Or.inl rfl

/-- C9 witness: the forwarding scenario — matched key `abc` appears under
`X-Auth-Key` in the downstream request. -/
theorem forward_header_carries_matched_key_witness :
    str "abc" ∈ kaForward.keys ∧
    (kaForward.internalForwardHeaderName ≠ [] →
      str "abc" ∈ valuesLookup reqForwardOut.headers
        (canonicalMIMEHeaderKey kaForward.internalForwardHeaderName)) ∧
    (kaForward.internalForwardHeaderName = [] →
      ∀ n, valuesLookup reqForwardOut.headers n = valuesLookup reqForward.headers n ∨
        valuesLookup reqForwardOut.headers n = []) :=
  forward_header_carries_matched_key kaForward reqForward reqForwardOut (str "abc") (by decide)

/-- C10: the empty-string sentinel means an empty allow-list entry can
never authenticate: every forwarded request has a non-empty matched key;
an absent header or query parameter (read as the empty string) never
produces an exact match even when the empty string is a key; and under the
substring policy an all-empty allow-list never matches any path. -/
theorem empty_key_never_authenticates :
    (∀ ka req r k, ServeHTTP ka req = Outcome.forwarded r k → k ≠ []) ∧
    (∀ L, contains [] L true = []) ∧
    (∀ (c : List Char) (L : List (List Char)), (∀ a ∈ L, a = []) →
      contains c L false = []) := by
  refine ⟨fun ka req r k h => (serve_forwarded_inv ka req r k h).1, contains_nil_exact, ?_⟩
  intro c L hL
  cases L with
  | nil => rfl
  | cons a rest =>
    have ha : a = [] := hL a (List.mem_cons_self a rest)
    have hsub : containsSub c a = true := by rw [ha]; exact containsSub_nil c
    simp only [contains]
    rw [if_neg (by decide : ¬(false = true)), if_pos hsub]
    exact ha

/-- C10 witness: the general statements applied at concrete inputs. -/
theorem empty_key_never_authenticates_witness :
    str "k1" ≠ ([] : List Char) ∧ contains [] [str "k1"] true = [] ∧
      contains (str "/p") [([] : List Char)] false = [] :=
  ⟨empty_key_never_authenticates.1 kaHeader reqHeader reqHeader (str "k1") (by decide),
   empty_key_never_authenticates.2.1 [str "k1"],
   empty_key_never_authenticates.2.2 (str "/p") [[]] (by decide)⟩





end ApiKeyAuth
